import Mathlib

/-!
# Verification of the pia-scrap acquisition pipeline

Shallow embedding of the core algorithms of the pia-scrap repository
(src/api.py, src/pia.py, src/novelpia_epub.py) and proofs about them:

* `looks_like_jwt` and the base64url decode validity test (api.py, lines 75-86),
  including a faithful model of CPython's non-strict `binascii.a2b_base64`
  semantics used by `base64.urlsafe_b64decode(p + "===")`;
* `request_with_retries` (api.py, lines 169-226): bounded retry on 5xx and
  network errors, plus the one-replay token-refresh path;
* `extract_t_token` / `iter_strings` (api.py, lines 342-396): the three-tier
  token search over arbitrarily nested JSON payloads;
* the `_mask_kv` / `_mask_value` logging filters (api.py, lines 132-161);
* the chapter dedup/ordering finalizer (pia.py lines 768-776,
  novelpia_epub.py lines 834-843);
* `walk_next_chapters` (pia.py lines 489-538, novelpia_epub.py lines 524-603);
* `goto_page` (pia.py lines 87-133, novelpia_epub.py lines 38-77) over an
  abstract pagination-UI state machine.
-/

namespace PiaScrap

/-! ## Kernel-computable string primitives

The embedded code is evaluated inside proofs (`decide` / `rfl`), so the
string operations it needs are defined over `String.data` character lists
rather than through the position-based core implementations. -/

def listStarts : List Char → List Char → Bool
  | [], _ => true
  | _ :: _, [] => false
  | a :: as, b :: bs => a == b && listStarts as bs

/-- Python `pat in hay` for strings: substring search. -/
def listHasSub (pat : List Char) : List Char → Bool
  | [] => listStarts pat []
  | c :: t => listStarts pat (c :: t) || listHasSub pat t

def strStarts (s pat : String) : Bool := listStarts pat.data s.data

def strEnds (s pat : String) : Bool := listStarts pat.data.reverse s.data.reverse

/-- Python `s[:n]`. -/
def strTake (s : String) (n : Nat) : String := String.mk (s.data.take n)

/-- Python `s[-n:]`. -/
def strEnd (s : String) (n : Nat) : String :=
  String.mk (s.data.drop (s.length - n))

def strLower (s : String) : String := String.mk (s.data.map Char.toLower)

/-- Python `s.split(sep)` for a one-character separator: always non-empty,
with empty pieces kept (`"".split(".") = [""]`). -/
def pySplitChar (sep : Char) : List Char → List (List Char)
  | [] => [[]]
  | c :: t =>
    if c == sep then [] :: pySplitChar sep t
    else
      match pySplitChar sep t with
      | [] => [[c]]
      | g :: gs => (c :: g) :: gs

def pySplit (sep : Char) (s : String) : List String :=
  (pySplitChar sep s.data).map String.mk

/-- Python `sep.join(parts)`. -/
def pyJoin (sep : String) : List String → String
  | [] => ""
  | [p] => p
  | p :: ps => p ++ sep ++ pyJoin sep ps

/-! ## Base64url validity (api.py `looks_like_jwt`)

`base64.urlsafe_b64decode(p + "===")` translates `-`/`_` to `+`/`/` and calls
`binascii.a2b_base64` in non-strict mode.  Non-strict `a2b_base64`:
characters outside the base64 alphabet are discarded; a `=` seen with at
least two data characters in the current quad accumulates padding and
terminates the decode successfully once the quad is completed; a `=` seen
with fewer than two data characters in the quad is ignored; at the end of
input the decode succeeds iff the current quad is empty.  A non-ASCII
character makes `s.encode('ascii')` raise before decoding starts. -/

/-- A character that counts as base64 data after the urlsafe translation
(`-` → `+`, `_` → `/`): the standard alphabet plus the two urlsafe chars. -/
def isB64DataChar (c : Char) : Bool :=
  (65 ≤ c.toNat && c.toNat ≤ 90) || (97 ≤ c.toNat && c.toNat ≤ 122) ||
  (48 ≤ c.toNat && c.toNat ≤ 57) ||
  c == '+' || c == '/' || c == '-' || c == '_'

/-- The non-strict `a2b_base64` scan: `q` is the position in the current
quad (0-3), `pads` the padding count since the last data character. -/
def b64Scan : List Char → Nat → Nat → Bool
  | [], q, _ => q == 0
  | c :: rest, q, pads =>
    if c == '=' then
      if 2 ≤ q then
        if 4 ≤ q + (pads + 1) then true
        else b64Scan rest q (pads + 1)
      else b64Scan rest q pads
    else if isB64DataChar c then b64Scan rest ((q + 1) % 4) 0
    else b64Scan rest q pads

/-- Success of `base64.urlsafe_b64decode` on `p` with three pad characters
appended (api.py line 83). -/
def b64PaddedDecodeOk (p : String) : Bool :=
  p.data.all (fun c => c.toNat < 128) && b64Scan (p.data ++ ['=', '=', '=']) 0 0

/-- api.py lines 75-86.  The Python function takes `Optional[str]` and returns
`False` on non-strings; we embed the string branch. -/
def looks_like_jwt (token : String) : Bool :=
  let parts := pySplit '.' token
  parts.length == 3 && parts.all b64PaddedDecodeOk

/-! ## Resilient request executor (api.py `request_with_retries`)

The transport is a canned sequence of outcomes, one consumed per
`session.request` call: either a response (status plus whether its JSON body
holds the key `errmsg` bound to the string `The token has expired.`,
which is the refresh sentinel) or a
network-level `RequestException`. -/

/-- One `session.request` outcome. -/
inductive Outcome where
  | resp (status : Nat) (sentinel : Bool)
  | netErr
deriving DecidableEq

/-- How a call to `request_with_retries` can fail: re-raised
`RequestException` (→ `NetworkExhausted`), or the `max_retries = 0` corner
where the loop body never runs and the trailing `return r` hits an unbound
local. -/
inductive ReqError where
  | requestException
  | unboundLocal
deriving DecidableEq

/-- The observable result of one call: the returned status or raised error,
together with how many loop attempts ran, how many `session.request` calls
were issued, and how many times `refresh_fn` was invoked. -/
structure RunResult where
  outcome : Except ReqError Nat
  attempts : Nat
  requests : Nat
  refreshes : Nat

/-- The `allow_refresh` block (api.py lines 194-201), given the first
response of the attempt: on a sentinel body, `refresh_fn()` runs and the
request is replayed once — a replay that raises is swallowed by the inner
`except`, keeping the original response.  Returns the effective status and
the updated request / refresh counters. -/
def refreshStep (tr : Nat → Outcome) (allowRefresh : Bool) (st : Nat)
    (sent : Bool) (i f : Nat) : Nat × Nat × Nat :=
  if allowRefresh && sent then
    match tr (i + 1) with
    | .resp st2 _ => (st2, i + 2, f + 1)
    | .netErr => (st, i + 2, f + 1)
  else (st, i + 1, f)

/-- The retry loop of api.py lines 169-226.  `fuel` is the number of
remaining attempts (`max_retries - attempt`), `attempt`/`i`/`f` the attempt,
request and refresh counters so far.  Within an attempt: the response body is
checked for the sentinel when `allow_refresh` (via `refreshStep`); then a
5xx status with attempts remaining retries (lines 212-214), any other
status returns (line 215); a `RequestException` retries or re-raises
(lines 216-223). -/
def reqAux (tr : Nat → Outcome) (allowRefresh : Bool) (maxRetries : Nat) :
    Nat → Nat → Nat → Nat → RunResult
  | 0, attempt, i, f => ⟨.error .unboundLocal, attempt, i, f⟩
  | fuel + 1, attempt, i, f =>
    let a := attempt + 1
    match tr i with
    | .netErr =>
      if a < maxRetries then reqAux tr allowRefresh maxRetries fuel a (i + 1) f
      else ⟨.error .requestException, a, i + 1, f⟩
    | .resp st sent =>
      let step := refreshStep tr allowRefresh st sent i f
      if 500 ≤ step.1 && a < maxRetries then
        reqAux tr allowRefresh maxRetries fuel a step.2.1 step.2.2
      else ⟨.ok step.1, a, step.2.1, step.2.2⟩

/-- api.py lines 125-226, specialised to the observable retry behaviour. -/
def request_with_retries (tr : Nat → Outcome) (maxRetries : Nat)
    (allowRefresh : Bool) : RunResult :=
  reqAux tr allowRefresh maxRetries maxRetries 0 0 0

/-- A canned transport: consume the list, then keep answering with 200. -/
def cannedTr (l : List Outcome) : Nat → Outcome :=
  fun i => l.getD i (.resp 200 false)

/-! ## JSON payloads

Python values reaching `extract_t_token`, `iter_strings` and the masking
filters are JSON-decoded: strings, dicts (insertion-ordered), lists, and
scalars (numbers, booleans, `None`).  The scalars behave identically in all
the embedded code (they are not `str`/`dict`/`list`), so they share one
constructor. -/

inductive JVal where
  | str (v : String)
  | arr (items : List JVal)
  | obj (fields : List (String × JVal))
  | scalar

/-- Python `d.get(k)` on a dict modelled as an insertion-ordered
association list with unique keys. -/
def jlookup : List (String × JVal) → String → Option JVal
  | [], _ => none
  | (k', v) :: t, k => if k' = k then some v else jlookup t k

/-! api.py lines 342-350: `iter_strings` yields every string in the payload,
depth first, dict values in insertion order. -/

mutual

def iter_strings : JVal → List String
  | .str v => [v]
  | .obj fields => iterFields fields
  | .arr items => iterItems items
  | .scalar => []

def iterFields : List (String × JVal) → List String
  | [] => []
  | (_, v) :: t => iter_strings v ++ iterFields t

def iterItems : List JVal → List String
  | [] => []
  | v :: t => iter_strings v ++ iterItems t

end

/-! ## URL parsing (`urllib.parse.urlparse` / `parse_qs`)

Only the pieces used by api.py lines 381-391 are modelled, for inputs that
start with `http://` or `https://` (the code checks this first): the netloc
is everything up to the first `/`, `?` or `#`; the path runs to the first
`?` or `#`; the query follows a `?` up to a `#`.  `parse_qs` splits the
query on `&`, splits each field at its first `=`, drops fields with no `=`
or an empty value, replaces `+` by space and percent-decodes.  (Percent
escapes are decoded bytewise; multi-byte UTF-8 recombination is not
modelled — token values are ASCII.) -/

/-- Split a character list at the first character satisfying `stop`
(the stop character stays in the second component). -/
def splitAtFirst (stop : Char → Bool) : List Char → List Char × List Char
  | [] => ([], [])
  | c :: t =>
    if stop c then ([], c :: t)
    else
      let p := splitAtFirst stop t
      (c :: p.1, p.2)

/-- The characters after the `http://` / `https://` scheme, if any. -/
def urlAfterScheme (s : String) : Option (List Char) :=
  if strStarts s "http://" then some (s.data.drop 7)
  else if strStarts s "https://" then some (s.data.drop 8)
  else none

/-- The `(netloc, path, query)` triple of an absolute http(s) URL. -/
def urlParts (s : String) : Option (String × String × String) :=
  match urlAfterScheme s with
  | none => none
  | some cs =>
    let p1 := splitAtFirst (fun c => c == '/' || c == '?' || c == '#') cs
    let p2 := splitAtFirst (fun c => c == '?' || c == '#') p1.2
    let query :=
      match p2.2 with
      | '?' :: t => (splitAtFirst (fun c => c == '#') t).1
      | _ => []
    some (String.mk p1.1, String.mk p2.1, String.mk query)

def hexDigitVal (c : Char) : Option Nat :=
  let n := c.toNat
  if 48 ≤ n && n ≤ 57 then some (n - 48)
  else if 65 ≤ n && n ≤ 70 then some (n - 55)
  else if 97 ≤ n && n ≤ 102 then some (n - 87)
  else none

/-- Python `urllib.parse.unquote`, bytewise: `%XY` becomes the byte `0xXY`;
malformed escapes are left as-is. -/
def pctDecode : List Char → List Char
  | [] => []
  | '%' :: a :: b :: t =>
    match hexDigitVal a, hexDigitVal b with
    | some x, some y => Char.ofNat (16 * x + y) :: pctDecode t
    | _, _ => '%' :: pctDecode (a :: b :: t)
  | ['%', a] => ['%', a]
  | ['%'] => ['%']
  | c :: t => c :: pctDecode t

def unquotePlus (s : String) : String :=
  String.mk (pctDecode (s.data.map (fun c => if c == '+' then ' ' else c)))

/-- The `(name, value)` pairs of `urllib.parse.parse_qsl` with default
options: empty fields, fields without `=` and fields with an empty value
are dropped. -/
def qsPairs (query : String) : List (String × String) :=
  if query = "" then []
  else
    (pySplit '&' query).filterMap fun nv =>
      if nv = "" then none
      else
        match pySplit '=' nv with
        | [] => none
        | [_] => none
        | name :: rest =>
          let value := pyJoin "=" rest
          if value = "" then none
          else some (unquotePlus name, unquotePlus value)

/-- Python `parse_qs(query).get(key)` followed by `[0]`: the first value bound to
`key`, if any. -/
def qsFirst (query key : String) : Option String :=
  ((qsPairs query).filter (fun p => p.1 = key)).head?.map (·.2)

/-! ## Token extraction (api.py `extract_t_token`, lines 352-396) -/

def TOKEN_KEYS : List String := ["_t", "t", "token"]

/-- Tier-3 test (api.py lines 381-391): an absolute http(s) URL whose netloc
ends with the official API host and whose path ends with the content
endpoint; the candidate is its first non-empty `_t` query value. -/
def contentUrlToken (s : String) : Option String :=
  match urlParts s with
  | none => none
  | some (netloc, path, query) =>
    if strEnds netloc "api-global.novelpia.com" &&
        strEnds path "/v1/novel/episode/content" then
      match qsFirst query "_t" with
      | some cand => if cand = "" then none else some cand
      | none => none
    else none

/-- The result lookup of api.py line 357: `tdata.get` of the key `result`
with an empty-dict default, when `tdata` is a dict, and the empty dict
otherwise.  Note the default only applies when the key is absent:
a `result` bound to a non-dict value (string, list, number, null) comes
back as-is. -/
def getResultField : JVal → JVal
  | .obj fields => (jlookup fields "result").getD (.obj [])
  | _ => .obj []

/-- A candidate is a non-empty string value paired with the URL it came
from (tier 3) or `none` (tiers 1 and 2). -/
abbrev Cand := String × Option String

/-- Tier 1 (api.py lines 361-366) and the inner loop of tier 2: the values
of `_t`, `t`, `token` in `fields` that are non-empty strings, in key order. -/
def keyCands (fields : List (String × JVal)) : List Cand :=
  TOKEN_KEYS.filterMap fun k =>
    match jlookup fields k with
    | some (.str v) => if v = "" then none else some (v, none)
    | _ => none

/-- Tier 2 (api.py lines 369-377): the same three keys inside each
dict-valued field of the result object, in insertion order. -/
def tier2Cands (fields : List (String × JVal)) : List Cand :=
  fields.flatMap fun kv =>
    match kv.2 with
    | .obj f2 => keyCands f2
    | _ => []

/-- Tier 3 (api.py lines 380-393): every string in the whole payload that is
a content-endpoint URL carrying a `_t` value. -/
def tier3Cands (tdata : JVal) : List Cand :=
  (iter_strings tdata).filterMap fun s =>
    (contentUrlToken s).map fun cand => (cand, some s)

/-- All candidates in the traversal order of the source. -/
def allCands (tdata : JVal) (resFields : List (String × JVal)) : List Cand :=
  keyCands resFields ++ tier2Cands resFields ++ tier3Cands tdata

/-- The shared body of the three source loops: return the first JWT-shaped
candidate immediately; remember the first other candidate as
`fallback_token` (`fallback_token = fallback_token or v`); after the loops,
return `(fallback_token, None)` when set and `(None, None)` otherwise. -/
def scanCands : List Cand → Option String → Option String × Option String
  | [], fb => (fb, none)
  | (v, u) :: rest, fb =>
    if looks_like_jwt v then (some v, u)
    else scanCands rest (fb <|> some v)

/-- api.py lines 352-396.  `.error ()` models the uncaught `AttributeError`
raised by `res.get("_t")` at line 362 when the payload's `result` field is
present but not a dict (tier 1 has no `isinstance` guard, unlike tier 2). -/
def extract_t_token (tdata : JVal) : Except Unit (Option String × Option String) :=
  match getResultField tdata with
  | .obj resFields => .ok (scanCands (allCands tdata resFields) none)
  | _ => .error ()

/-- The result object's fields, when it is a dict. -/
def resFieldsOf (tdata : JVal) : List (String × JVal) :=
  match getResultField tdata with
  | .obj fields => fields
  | _ => []

/-- Whether the code path that raises is avoided: the payload either is not
a dict, lacks a `result` field, or binds `result` to a dict. -/
def resultIsDict (tdata : JVal) : Bool :=
  match getResultField tdata with
  | .obj _ => true
  | _ => false

/-- Modelled from the spec (§4.3): search the tiers in order, "first match
wins within each tier, JWT-shaped values preferred over plain strings at
every tier before moving to the next tier"; "if no JWT-shaped candidate is
found at any tier, the first non-empty plain-string candidate encountered
during the same traversal is returned as a fallback; if none exists,
returns not found". -/
def extract_t_token_spec (tdata : JVal) : Option String × Option String :=
  let cands := allCands tdata (resFieldsOf tdata)
  match cands.find? (fun c => looks_like_jwt c.1) with
  | some c => (some c.1, c.2)
  | none =>
    match cands.find? (fun c => c.1 != "") with
    | some c => (some c.1, none)
    | none => (none, none)

/-! ## The logging mask (api.py `_mask_value` / `_mask_kv`, lines 132-161) -/

/-- The credential-key patterns of api.py line 157; a key is masked when its
lower-cased form contains any of them. -/
def CRED_PATTERNS : List String :=
  ["pass", "passwd", "password", "authorization", "token", "login-at",
   "login_at", "_t"]

def isCredKey (k : String) : Bool :=
  CRED_PATTERNS.any fun x => listHasSub x.data (strLower k).data

/-- api.py line 141: `low.count(".") == 2 and all(len(p) > 5 for p in
v.split("."))`. -/
def jwtLikeMask (v : String) : Bool :=
  (v.data.count '.' == 2) && (pySplit '.' v).all (fun p => 5 < p.length)

/-- The string case of `_mask_value` (api.py lines 138-146): condense
JWT-like strings to `parts[0][:6] + "..." + parts[-1][-6:]`; truncate
strings longer than 64 to `v[:32] + "…(trunc)"`; keep the rest. -/
def mask_value_str (v : String) : String :=
  if jwtLikeMask v then
    let parts := pySplit '.' v
    strTake (parts.headD "") 6 ++ "..." ++ strEnd (parts.getLastD "") 6
  else if 64 < v.length then strTake v 32 ++ "…(trunc)"
  else v

/-! api.py lines 132-149: `_mask_value` recurses through dicts and lists and
masks only string *shapes*; it never looks at keys. -/

mutual

def mask_value : JVal → JVal
  | .str v => .str (mask_value_str v)
  | .obj fields => .obj (maskValFields fields)
  | .arr items => .arr (maskValItems items)
  | .scalar => .scalar

def maskValFields : List (String × JVal) → List (String × JVal)
  | [] => []
  | (k, v) :: t => (k, mask_value v) :: maskValFields t

def maskValItems : List JVal → List JVal
  | [] => []
  | v :: t => mask_value v :: maskValItems t

end

/-- api.py lines 151-161: top-level fields with credential-like names are
replaced by the fixed marker `"***"`; all other values go through
`_mask_value`. -/
def mask_kv (d : List (String × JVal)) : List (String × JVal) :=
  d.map fun kv => if isCredKey kv.1 then (kv.1, .str "***") else (kv.1, mask_value kv.2)

/-- api.py lines 203-211: the logged *response* body preview is
`r.text[:500] + "…"` when long — truncation only, no masking. -/
def log_body_preview (t : String) : String :=
  if 500 < t.length then strTake t 500 ++ "…" else t

/-! ## Chapters and the dedup/ordering finalizer
(pia.py lines 30-34 and 768-776; novelpia_epub.py lines 129-133 and
834-843 — the two mains share this logic verbatim) -/

structure Chapter where
  idx : Nat
  title : String
  url : String
deriving DecidableEq

/-- Python `"/viewer/" in c.url`. -/
def viewerShaped (u : String) : Bool :=
  listHasSub "/viewer/".data u.data

/-- The dict-building loop: `if c.url not in dedup and ("/viewer/" in
c.url): dedup[c.url] = c`, then `list(dedup.values())` — i.e. the first
occurrence of each viewer-shaped url, in input order.  `seen` holds the
urls already inserted. -/
def dedupViewer : List Chapter → List String → List Chapter
  | [], _ => []
  | c :: t, seen =>
    if !(seen.contains c.url) && viewerShaped c.url then
      c :: dedupViewer t (c.url :: seen)
    else dedupViewer t seen

/-- Stable insertion for `chapters.sort(key=lambda c: c.idx)`: a chapter is
placed before the first later-in-input chapter with a strictly larger
index. -/
def insertByIdx (c : Chapter) : List Chapter → List Chapter
  | [] => [c]
  | d :: t => if c.idx ≤ d.idx then c :: d :: t else d :: insertByIdx c t

/-- Python's stable ascending `list.sort(key=lambda c: c.idx)`. -/
def sortByIdx : List Chapter → List Chapter
  | [] => []
  | c :: t => insertByIdx c (sortByIdx t)

/-- The finalizer of both mains: dedup to first viewer-shaped occurrences,
sort by the (unchanged) `idx` field, and truncate when
`args.max_chapters > 0`. -/
def finalize_chapters (maxChapters : Nat) (chs : List Chapter) : List Chapter :=
  let dd := sortByIdx (dedupViewer chs [])
  if 0 < maxChapters then dd.take maxChapters else dd

/-! ## The fallback sequential walker (`walk_next_chapters`,
pia.py lines 489-538 and novelpia_epub.py lines 524-603)

The page environment is abstracted into two pure functions: `titleOf url`
is the `<title>` text of the loaded page (may be empty) and `nextOf url`
is the url resolved from the "next" affordance search (the label patterns
and the `rel=next` anchor fallback), with `""` for "no next found"
(Python's falsy `next_url`).  Both source versions have identical loop
structure. -/

/-- The Python default `max_steps=300` of both definitions. -/
def WALK_DEFAULT_MAX_STEPS : Nat := 300

def walkAux (nextOf titleOf : String → String) :
    Nat → String → Nat → List String → List Chapter
  | 0, _, _, _ => []
  | fuel + 1, url, idx, seen =>
    if url == "" || seen.contains url then []
    else
      let t := titleOf url
      let ch : Chapter := ⟨idx, if t = "" then "Chapter " ++ toString idx else t, url⟩
      let nu := nextOf url
      if nu == "" || nu == url then [ch]
      else ch :: walkAux nextOf titleOf fuel nu (idx + 1) (url :: seen)

def walk_next_chapters (nextOf titleOf : String → String) (startUrl : String)
    (maxSteps : Nat) : List Chapter :=
  walkAux nextOf titleOf maxSteps startUrl 1 []

/-! ## Pagination navigation (`goto_page`,
pia.py lines 87-133 and novelpia_epub.py lines 38-77)

The rendered pagination surface is abstracted to a state type `S`:
`cur s` is the parsed text of the `.page-btn.current` indicator (`none`
when missing or non-numeric), `hasBtn s n` whether a numeric (non-arrow)
control matching `n` is visible, `clickNum s n` the state after clicking
it (the subsequent `wait_for_function` checks whether the indicator became
`n`; a timeout is caught and the loop continues), `hasArrow`/`clickArrow`
the "next group" `›` control.  The result is `(success, final state,
number of clicks issued)`. -/

structure PagUI (S : Type) where
  cur : S → Option Nat
  hasBtn : S → Nat → Bool
  clickNum : S → Nat → S
  hasArrow : S → Bool
  clickArrow : S → S

/-- The `for _ in range(40)` group-advance loop of pia.py lines 115-132:
if a control for `target` is visible, click it and succeed if the
indicator confirms (otherwise the caught timeout falls through to the
next iteration); else click `›` if present (break and fail when it is
not). -/
def gotoAuxPia {S : Type} (ui : PagUI S) (target : Nat) :
    Nat → S → Nat → Bool × S × Nat
  | 0, s, n => (false, s, n)
  | fuel + 1, s, n =>
    if ui.hasBtn s target then
      let s' := ui.clickNum s target
      if ui.cur s' = some target then (true, s', n + 1)
      else gotoAuxPia ui target fuel s' (n + 1)
    else if ui.hasArrow s then gotoAuxPia ui target fuel (ui.clickArrow s) (n + 1)
    else (false, s, n)

/-- pia.py lines 87-133: return immediately when the current-page indicator
already shows `target`; else try the direct numeric control; else step
groups via `›`. -/
def goto_page {S : Type} (ui : PagUI S) (s : S) (target : Nat) : Bool × S × Nat :=
  if ui.cur s = some target then (true, s, 0)
  else if ui.hasBtn s target then
    let s' := ui.clickNum s target
    if ui.cur s' = some target then (true, s', 1)
    else gotoAuxPia ui target 40 s' 1
  else gotoAuxPia ui target 40 s 0

/-- The `for _ in range(60)` loop of novelpia_epub.py lines 58-75: click `›`
(break and fail when absent), then try the numeric control for `target`. -/
def gotoAuxEpub {S : Type} (ui : PagUI S) (target : Nat) :
    Nat → S → Nat → Bool × S × Nat
  | 0, s, n => (false, s, n)
  | fuel + 1, s, n =>
    if ui.hasArrow s then
      let s1 := ui.clickArrow s
      if ui.hasBtn s1 target then
        let s2 := ui.clickNum s1 target
        if ui.cur s2 = some target then (true, s2, n + 2)
        else gotoAuxEpub ui target fuel s2 (n + 2)
      else gotoAuxEpub ui target fuel s1 (n + 1)
    else (false, s, n)

/-- novelpia_epub.py lines 38-77. -/
def goto_page_epub {S : Type} (ui : PagUI S) (s : S) (target : Nat) :
    Bool × S × Nat :=
  if ui.cur s = some target then (true, s, 0)
  else if ui.hasBtn s target then
    let s' := ui.clickNum s target
    if ui.cur s' = some target then (true, s', 1)
    else gotoAuxEpub ui target 60 s' 1
  else gotoAuxEpub ui target 60 s 0

/-! ## Concrete test fixtures -/

def twoFiveHundredThenOk : List Outcome :=
  [.resp 500 false, .resp 500 false, .resp 200 false]

def threeFiveHundred : List Outcome :=
  [.resp 500 false, .resp 500 false, .resp 500 false]

def threeNetErr : List Outcome := [.netErr, .netErr, .netErr]

/-- A transport whose first and third responses carry the token-expired
sentinel, and whose second (the first refresh replay) is a 500. -/
def sentinelTwice : List Outcome :=
  [.resp 200 true, .resp 500 false, .resp 200 true, .resp 200 false]

def vA : String := "https://global.novelpia.com/viewer/1"
def vB : String := "https://global.novelpia.com/viewer/2"
def vC : String := "https://global.novelpia.com/viewer/3"

/-- Discovery order `[A, B, A, C, B]` with discovery indices `1..5`. -/
def exChs : List Chapter :=
  [⟨1, "a", vA⟩, ⟨2, "b", vB⟩, ⟨3, "c", vA⟩, ⟨4, "d", vC⟩, ⟨5, "e", vB⟩]

/-- A pagination surface whose indicator always shows the state and whose
numeric controls jump straight to the clicked page. -/
def uiDemo : PagUI Nat :=
  ⟨fun s => some s, fun _ _ => true, fun _ t => t, fun _ => false, id⟩

/-- A request json body whose credential sits one level down, under the
non-credential key `"a"`. -/
def maskExA : List (String × JVal) :=
  [("a", .obj [("password", .str "hunter2xx")])]

/-- The same body with a different password. -/
def maskExB : List (String × JVal) :=
  [("a", .obj [("password", .str "hunter2yy")])]

/-- A ticket envelope with a JWT-shaped `_t` directly under `result`. -/
def ticketEx : JVal := .obj [("result", .obj [("_t", .str "abcd.efgh.ijkl")])]

/-! ## Helper lemmas: base64 scan characterisation -/

lemma b64Scan_pad_only (q : Nat) (hq : q < 4) :
    b64Scan ['=', '=', '='] q 0 = decide (q ≠ 1) := by
  interval_cases q <;> rfl

lemma b64Scan_no_eq_char (l : List Char) (h : '=' ∉ l) :
    ∀ q : Nat, q < 4 →
      b64Scan (l ++ ['=', '=', '=']) q 0 =
        decide ((q + l.countP (fun c => isB64DataChar c)) % 4 ≠ 1) := by
  induction l with
  | nil =>
    intro q hq
    rw [List.nil_append, b64Scan_pad_only q hq]
    simp only [List.countP_nil, Nat.add_zero, decide_eq_decide]
    omega
  | cons c t ih =>
    intro q hq
    have hc : c ≠ '=' := fun hcc => h (hcc ▸ List.mem_cons_self c t)
    have ht : '=' ∉ t := fun htt => h (List.mem_cons_of_mem c htt)
    have hcb : (c == '=') = false := by simp [hc]
    by_cases hd : isB64DataChar c = true
    · have : b64Scan ((c :: t) ++ ['=', '=', '=']) q 0 =
          b64Scan (t ++ ['=', '=', '=']) ((q + 1) % 4) 0 := by
        simp [b64Scan, hcb, hd]
      rw [this, ih ht ((q + 1) % 4) (Nat.mod_lt _ (by omega))]
      simp only [List.countP_cons, hd, if_pos, decide_eq_decide]
      omega
    · have hd' : isB64DataChar c = false := by simpa using hd
      have : b64Scan ((c :: t) ++ ['=', '=', '=']) q 0 =
          b64Scan (t ++ ['=', '=', '=']) q 0 := by
        simp [b64Scan, hcb, hd']
      rw [this, ih ht q hq]
      simp [List.countP_cons, hd']

lemma b64PaddedDecodeOk_char (p : String) (h : '=' ∉ p.data) :
    b64PaddedDecodeOk p = true ↔
      (p.data.all (fun c => c.toNat < 128) = true ∧
        (p.data.countP (fun c => isB64DataChar c)) % 4 ≠ 1) := by
  unfold b64PaddedDecodeOk
  rw [Bool.and_eq_true, b64Scan_no_eq_char p.data h 0 (by omega)]
  simp

/-! ## C1 — the JWT-shape test -/

/-- C1 counterexample.  The claim asserts `looks_like_jwt "abc.def.ghi" =
false` ("non-base64 segments"); but `abc`, `def`, `ghi` are drawn from the
base64url alphabet and 3 data characters decode fine under the `"==="`
padding tolerance, so the source returns `true` (checked against CPython:
`base64.urlsafe_b64decode("abc===") = b'i\xb7'`). -/
theorem looks_like_jwt_abc_def_ghi : looks_like_jwt "abc.def.ghi" = true := by
  decide

/-- C1 (amended): `looks_like_jwt s` is true iff `s` has exactly three
dot-separated segments and each segment decodes as base64url under the
`"==="` padding tolerance; for a segment without `=` this holds iff the
segment is pure ASCII and its number of base64url-alphabet characters is
not `≡ 1 (mod 4)` (characters outside the alphabet are discarded, not
rejected).  In particular `"abc.def.ghi"` is accepted, as is the
well-formed three-segment base64url string `"abcd.efgh.ijkl"`. -/
theorem looks_like_jwt_characterization :
    (∀ s : String, looks_like_jwt s = true ↔
        ((pySplit '.' s).length = 3 ∧
          ∀ p ∈ pySplit '.' s, b64PaddedDecodeOk p = true)) ∧
    (∀ p : String, '=' ∉ p.data →
        (b64PaddedDecodeOk p = true ↔
          (p.data.all (fun c => c.toNat < 128) = true ∧
            (p.data.countP (fun c => isB64DataChar c)) % 4 ≠ 1))) ∧
    looks_like_jwt "abc.def.ghi" = true ∧
    looks_like_jwt "abcd.efgh.ijkl" = true := by
  refine ⟨?_, b64PaddedDecodeOk_char, by decide, by decide⟩
  intro s
  simp [looks_like_jwt, List.all_eq_true]

/-- Witness for C1: the characterisation applied to the concrete segment
`"abc"` (3 alphabet characters, `3 % 4 ≠ 1`, hence valid). -/
theorem looks_like_jwt_characterization_witness :
    b64PaddedDecodeOk "abc" = true ↔
      ("abc".data.all (fun c => c.toNat < 128) = true ∧
        ("abc".data.countP (fun c => isB64DataChar c)) % 4 ≠ 1) :=
  looks_like_jwt_characterization.2.1 "abc" (by decide)

/-! ## C2 — the retry executor on canned transports -/

/-- C2 counterexample.  On three consecutive 500s with `max_retries = 3`
the claim asserts a `NetworkExhausted` raise; the source instead hits
`return r` on the final attempt (api.py line 215: the 5xx retry branch
requires `attempt < max_retries`), returning the third 500 response. -/
theorem retries_three_500_returns_last :
    (request_with_retries (cannedTr threeFiveHundred) 3 false).outcome = .ok 500 ∧
    (request_with_retries (cannedTr threeFiveHundred) 3 false).outcome ≠
      .error .requestException ∧
    (request_with_retries (cannedTr threeFiveHundred) 3 false).attempts = 3 := by
  refine ⟨rfl, ?_, rfl⟩
  intro h
  rw [show (request_with_retries (cannedTr threeFiveHundred) 3 false).outcome =
      Except.ok 500 from rfl] at h
  exact Except.noConfusion h

/-- C2 (amended): with `max_retries = 3`, two 500s followed by a 200 yield
the 200 response after exactly 3 attempts; three consecutive 500s yield the
*third 500 response* after exactly 3 attempts (no raise); the re-raise that
the spec calls `NetworkExhausted` happens only when network-level
exceptions exhaust all attempts. -/
theorem retries_canned_behavior :
    request_with_retries (cannedTr twoFiveHundredThenOk) 3 false =
      ⟨.ok 200, 3, 3, 0⟩ ∧
    request_with_retries (cannedTr threeFiveHundred) 3 false =
      ⟨.ok 500, 3, 3, 0⟩ ∧
    request_with_retries (cannedTr threeNetErr) 3 false =
      ⟨.error .requestException, 3, 3, 0⟩ :=
  ⟨rfl, rfl, rfl⟩

/-! ## Helper lemmas: refresh accounting -/

lemma refreshStep_counts (tr : Nat → Outcome) (ar : Bool) (st : Nat)
    (sent : Bool) (i f : Nat) :
    ∃ d : Nat, d ≤ 1 ∧ (refreshStep tr ar st sent i f).2.1 = i + 1 + d ∧
      (refreshStep tr ar st sent i f).2.2 = f + d := by
  unfold refreshStep
  by_cases h : (ar && sent) = true
  · rw [if_pos h]
    cases tr (i + 1) <;> exact ⟨1, by omega, rfl, rfl⟩
  · rw [if_neg h]
    exact ⟨0, by omega, rfl, rfl⟩

lemma reqAux_counts (tr : Nat → Outcome) (ar : Bool) (mr : Nat) :
    ∀ fuel attempt i f : Nat,
      ∃ da dr : Nat,
        (reqAux tr ar mr fuel attempt i f).attempts = attempt + da ∧
        (reqAux tr ar mr fuel attempt i f).refreshes = f + dr ∧
        (reqAux tr ar mr fuel attempt i f).requests = i + da + dr ∧
        dr ≤ da := by
  intro fuel
  induction fuel with
  | zero => intro attempt i f; exact ⟨0, 0, rfl, rfl, rfl, Nat.le_refl 0⟩
  | succ fuel ih =>
    intro attempt i f
    cases htr : tr i with
    | netErr =>
      simp only [reqAux, htr]
      by_cases hlt : attempt + 1 < mr
      · rw [if_pos hlt]
        obtain ⟨da, dr, h1, h2, h3, h4⟩ := ih (attempt + 1) (i + 1) f
        exact ⟨da + 1, dr, by omega, by omega, by omega, by omega⟩
      · rw [if_neg hlt]
        exact ⟨1, 0, rfl, rfl, rfl, by omega⟩
    | resp st sent =>
      simp only [reqAux, htr]
      obtain ⟨d, hd, hi2, hf2⟩ := refreshStep_counts tr ar st sent i f
      split
      · obtain ⟨da, dr, h1, h2, h3, h4⟩ :=
          ih (attempt + 1) (refreshStep tr ar st sent i f).2.1
            (refreshStep tr ar st sent i f).2.2
        exact ⟨da + 1, dr + d, by omega, by omega, by omega, by omega⟩
      · exact ⟨1, d, rfl, hf2, hi2, by omega⟩

lemma reqAux_no_refresh (tr : Nat → Outcome) (mr : Nat) :
    ∀ fuel attempt i f : Nat,
      (reqAux tr false mr fuel attempt i f).refreshes = f := by
  intro fuel
  induction fuel with
  | zero => intro attempt i f; rfl
  | succ fuel ih =>
    intro attempt i f
    cases htr : tr i with
    | netErr =>
      simp only [reqAux, htr]
      by_cases hlt : attempt + 1 < mr
      · rw [if_pos hlt]; exact ih (attempt + 1) (i + 1) f
      · rw [if_neg hlt]
    | resp st sent =>
      simp only [reqAux, htr,
        show refreshStep tr false st sent i f = (st, i + 1, f) from rfl]
      split
      · exact ih (attempt + 1) (i + 1) f
      · rfl

/-! ## C4 — token refresh within one executor call -/

/-- C4 counterexample.  The first response of attempt 1 carries the
sentinel, its replay is a 500 (so the attempt retries), and the first
response of attempt 2 carries the sentinel again: `refresh_fn` runs *twice*
inside one `request_with_retries` call, contradicting "the refresh callback
is invoked exactly once within that call ... no further refresh attempts
inside the same call".  The sentinel check runs on every attempt of the
retry loop (api.py lines 194-201 sit inside the `while`). -/
theorem refresh_invoked_twice :
    (request_with_retries (cannedTr sentinelTwice) 3 true).refreshes = 2 ∧
    (request_with_retries (cannedTr sentinelTwice) 3 true).refreshes ≠ 1 ∧
    (request_with_retries (cannedTr sentinelTwice) 3 true).outcome = .ok 200 :=
  ⟨rfl, by decide, rfl⟩

/-- C4 (amended): within each retry attempt whose first response carries the
sentinel, the refresh callback runs exactly once and the request is
replayed exactly once (the replayed response is not re-inspected, so there
is no recursive refresh inside an attempt) — hence over a whole call,
`requests = attempts + refreshes` and `refreshes ≤ attempts`; a later
attempt of the same call can trigger a further refresh.  With
`allow_refresh` unset no refresh ever happens. -/
theorem refresh_once_per_attempt :
    ∀ (tr : Nat → Outcome) (maxRetries : Nat) (allowRefresh : Bool),
      (request_with_retries tr maxRetries allowRefresh).refreshes ≤
        (request_with_retries tr maxRetries allowRefresh).attempts ∧
      (request_with_retries tr maxRetries allowRefresh).requests =
        (request_with_retries tr maxRetries allowRefresh).attempts +
          (request_with_retries tr maxRetries allowRefresh).refreshes ∧
      (allowRefresh = false →
        (request_with_retries tr maxRetries allowRefresh).refreshes = 0) := by
  intro tr mr ar
  obtain ⟨da, dr, h1, h2, h3, h4⟩ := reqAux_counts tr ar mr mr 0 0 0
  unfold request_with_retries
  refine ⟨by omega, by omega, ?_⟩
  intro har
  subst har
  exact reqAux_no_refresh tr mr mr 0 0 0

/-- Witness for C4: the amended theorem applied to the double-sentinel
transport (with the refresh disabled and enabled respectively). -/
theorem refresh_once_per_attempt_witness :
    (request_with_retries (cannedTr sentinelTwice) 3 false).refreshes = 0 ∧
    (request_with_retries (cannedTr sentinelTwice) 3 true).requests =
      (request_with_retries (cannedTr sentinelTwice) 3 true).attempts +
        (request_with_retries (cannedTr sentinelTwice) 3 true).refreshes :=
  ⟨(refresh_once_per_attempt (cannedTr sentinelTwice) 3 false).2.2 rfl,
   (refresh_once_per_attempt (cannedTr sentinelTwice) 3 true).2.1⟩

/-! ## Helper lemmas: candidate scan -/

lemma orElse_absorb (fb : Option String) (v : String) (x : Option String) :
    ((fb <|> some v) <|> x) = (fb <|> some v) := by
  cases fb <;> rfl

lemma scanCands_eq_find :
    ∀ (cands : List Cand) (fb : Option String),
      scanCands cands fb =
        match cands.find? (fun c => looks_like_jwt c.1) with
        | some c => (some c.1, c.2)
        | none => (fb <|> cands.head?.map Prod.fst, none) := by
  intro cands
  induction cands with
  | nil => intro fb; simp [scanCands]
  | cons c t ih =>
    intro fb
    obtain ⟨v, u⟩ := c
    by_cases hj : looks_like_jwt v = true
    · simp [scanCands, List.find?, hj]
    · have hj' : looks_like_jwt v = false := by simpa using hj
      have hstep : scanCands ((v, u) :: t) fb = scanCands t (fb <|> some v) := by
        simp [scanCands, hj']
      rw [hstep, ih]
      have hfind : ((v, u) :: t).find? (fun c => looks_like_jwt c.1) =
          t.find? (fun c => looks_like_jwt c.1) := by
        simp [List.find?, hj']
      rw [hfind]
      cases t.find? (fun c => looks_like_jwt c.1) with
      | some c => rfl
      | none => rw [orElse_absorb]; rfl

lemma find?_nonempty_eq_head (cands : List Cand)
    (h : ∀ c ∈ cands, c.1 ≠ "") :
    cands.find? (fun c => c.1 != "") = cands.head? := by
  cases cands with
  | nil => rfl
  | cons c t =>
    have hc : (c.1 != "") = true := by
      simpa using h c (List.mem_cons_self c t)
    simp [List.find?, hc]

lemma keyCands_ne (fields : List (String × JVal)) :
    ∀ c ∈ keyCands fields, c.1 ≠ "" := by
  intro c hc
  simp only [keyCands, List.mem_filterMap] at hc
  obtain ⟨k, _, hk⟩ := hc
  cases hl : jlookup fields k with
  | none => simp [hl] at hk
  | some v =>
    cases v with
    | str s =>
      simp only [hl] at hk
      by_cases hs : s = ""
      · rw [if_pos hs] at hk
        exact Option.noConfusion hk
      · rw [if_neg hs] at hk
        have hcs : c = (s, none) := by injection hk with h'; exact h'.symm
        rw [hcs]
        exact hs
    | arr items => simp [hl] at hk
    | obj fields2 => simp [hl] at hk
    | scalar => simp [hl] at hk

lemma contentUrlToken_ne (s tok : String) (h : contentUrlToken s = some tok) :
    tok ≠ "" := by
  unfold contentUrlToken at h
  cases hu : urlParts s with
  | none => simp [hu] at h
  | some parts =>
    obtain ⟨netloc, path, query⟩ := parts
    simp only [hu] at h
    by_cases hc : (strEnds netloc "api-global.novelpia.com" &&
        strEnds path "/v1/novel/episode/content") = true
    · rw [if_pos hc] at h
      cases hq : qsFirst query "_t" with
      | none => simp [hq] at h
      | some cand =>
        simp only [hq] at h
        by_cases he : cand = ""
        · rw [if_pos he] at h
          exact Option.noConfusion h
        · rw [if_neg he] at h
          have htc : tok = cand := by injection h with h'; exact h'.symm
          rw [htc]
          exact he
    · rw [if_neg hc] at h
      exact Option.noConfusion h

lemma allCands_ne (tdata : JVal) (resFields : List (String × JVal)) :
    ∀ c ∈ allCands tdata resFields, c.1 ≠ "" := by
  intro c hc
  unfold allCands at hc
  rcases List.mem_append.mp hc with h12 | h3
  · rcases List.mem_append.mp h12 with h1 | h2
    · exact keyCands_ne resFields c h1
    · simp only [tier2Cands, List.mem_flatMap] at h2
      obtain ⟨kv, _, hin⟩ := h2
      cases hkv : kv.2 with
      | obj f2 =>
        simp only [hkv] at hin
        exact keyCands_ne f2 c hin
      | str v => simp [hkv] at hin
      | arr items => simp [hkv] at hin
      | scalar => simp [hkv] at hin
  · simp only [tier3Cands, List.mem_filterMap] at h3
    obtain ⟨s, _, hs⟩ := h3
    rcases Option.map_eq_some'.mp hs with ⟨cand, hcand, hc'⟩
    cases hc'
    exact contentUrlToken_ne s cand hcand

/-! ## C3 — the three-tier token search -/

/-- C3 counterexample.  A payload whose `result` field is a string has no
token candidate anywhere, yet `extract_t_token` does not return the
"not found" pair `(None, None)`: it raises `AttributeError` at
`res.get("_t")` (api.py line 362 has no `isinstance` guard), contradicting
"...returns the 'not found' result (None, None) without raising". -/
theorem extract_t_token_result_str_raises :
    extract_t_token (.obj [("result", .str "oops")]) = .error () ∧
    extract_t_token (.obj [("result", .str "oops")]) ≠ .ok (none, none) := by
  refine ⟨rfl, ?_⟩
  intro h
  rw [show extract_t_token (.obj [("result", .str "oops")]) = .error ()
      from rfl] at h
  exact Except.noConfusion h

/-- C3 (amended): for every payload whose `result` field is a dict (or
absent, or whose top level is not a dict — the envelope shapes), the
extraction equals the tiered search the spec describes: candidates are
enumerated tier 1 (`_t`, `t`, `token` under `result`), then tier 2 (the
same keys inside one-level-nested dicts), then tier 3 (content-endpoint
URLs anywhere, taking their `_t` parameter); the first JWT-shaped candidate
wins, otherwise the first non-empty plain candidate of the same traversal
is the fallback, otherwise `(None, None)`.  Payloads binding `result` to a
non-dict value instead raise. -/
theorem extract_t_token_tier_order :
    ∀ tdata : JVal, resultIsDict tdata = true →
      extract_t_token tdata = .ok (extract_t_token_spec tdata) := by
  intro tdata h
  unfold resultIsDict at h
  cases hg : getResultField tdata with
  | str v => simp [hg] at h
  | arr items => simp [hg] at h
  | scalar => simp [hg] at h
  | obj fields =>
    unfold extract_t_token extract_t_token_spec resFieldsOf
    simp only [hg]
    rw [scanCands_eq_find]
    cases hf : (allCands tdata fields).find? (fun c => looks_like_jwt c.1) with
    | some c => simp [hf]
    | none =>
      simp only [hf]
      rw [find?_nonempty_eq_head _ (allCands_ne tdata fields)]
      cases (allCands tdata fields).head? with
      | none => rfl
      | some c => rfl

/-- Witness for C3: the tier-order theorem at a concrete envelope whose
`result` carries a JWT-shaped `_t`. -/
theorem extract_t_token_tier_order_witness :
    extract_t_token ticketEx = .ok (extract_t_token_spec ticketEx) :=
  extract_t_token_tier_order ticketEx rfl

/-! ## C9 — purity / totality of the extractor -/

/-- C9 counterexample.  `extract_t_token` is not total: a payload binding
`result` to a list raises `AttributeError` (`'list' object has no
attribute 'get'`) at api.py line 362, so "never raises on an arbitrarily
nested payload" fails. -/
theorem extract_t_token_result_arr_raises :
    extract_t_token (.obj [("result", .arr [.str "x"])]) = .error () := rfl

/-- C9 (amended): `extract_t_token` is a pure function of its payload — in
this embedding determinism is by construction — and it raises exactly on
the payloads whose `result` field is present and bound to a non-dict value;
on every other payload (including non-dict top levels) it returns without
raising. -/
theorem extract_t_token_totality :
    (∀ tdata : JVal, resultIsDict tdata = true →
        ∃ v, extract_t_token tdata = .ok v) ∧
    (∀ tdata : JVal, resultIsDict tdata = false →
        extract_t_token tdata = .error ()) := by
  constructor
  · intro tdata h
    unfold resultIsDict at h
    unfold extract_t_token
    cases hg : getResultField tdata with
    | obj fields => simp only [hg]; exact ⟨_, rfl⟩
    | str v => simp [hg] at h
    | arr items => simp [hg] at h
    | scalar => simp [hg] at h
  · intro tdata h
    unfold resultIsDict at h
    unfold extract_t_token
    cases hg : getResultField tdata with
    | obj fields => simp [hg] at h
    | str v => simp [hg]
    | arr items => simp [hg]
    | scalar => simp [hg]

/-- Witness for C9: the totality theorem at a non-dict top-level payload
(first part) and at a string-valued `result` (second part). -/
theorem extract_t_token_totality_witness :
    (∃ v, extract_t_token (.str "plain") = .ok v) ∧
    extract_t_token (.obj [("result", .scalar)]) = .error () :=
  ⟨extract_t_token_totality.1 (.str "plain") rfl,
   extract_t_token_totality.2 (.obj [("result", .scalar)]) rfl⟩

/-! ## Helper lemmas: the finalizer -/

lemma contains_tail_false {b a : String} {l : List String}
    (h : (a :: l).contains b = false) : l.contains b = false := by
  rw [List.contains_cons] at h
  simp only [Bool.or_eq_false_iff] at h
  exact h.2

lemma insertByIdx_perm (c : Chapter) (l : List Chapter) :
    List.Perm (insertByIdx c l) (c :: l) := by
  induction l with
  | nil => exact List.Perm.refl _
  | cons d t ih =>
    simp only [insertByIdx]
    by_cases h : c.idx ≤ d.idx
    · rw [if_pos h]
    · rw [if_neg h]
      exact (ih.cons d).trans (List.Perm.swap c d t)

lemma sortByIdx_perm (l : List Chapter) : List.Perm (sortByIdx l) l := by
  induction l with
  | nil => exact List.Perm.refl _
  | cons c t ih => exact (insertByIdx_perm c (sortByIdx t)).trans (ih.cons c)

lemma mem_insertByIdx {x c : Chapter} {l : List Chapter} :
    x ∈ insertByIdx c l ↔ x = c ∨ x ∈ l := by
  rw [(insertByIdx_perm c l).mem_iff, List.mem_cons]

lemma insertByIdx_sorted (c : Chapter) (l : List Chapter)
    (h : l.Pairwise (fun a b => a.idx ≤ b.idx)) :
    (insertByIdx c l).Pairwise (fun a b => a.idx ≤ b.idx) := by
  induction l with
  | nil => simp [insertByIdx]
  | cons d t ih =>
    rcases List.pairwise_cons.mp h with ⟨hd, ht⟩
    simp only [insertByIdx]
    by_cases hle : c.idx ≤ d.idx
    · rw [if_pos hle]
      refine List.pairwise_cons.mpr ⟨?_, h⟩
      intro x hx
      rcases List.mem_cons.mp hx with rfl | hx'
      · exact hle
      · exact Nat.le_trans hle (hd x hx')
    · rw [if_neg hle]
      refine List.pairwise_cons.mpr ⟨?_, ih ht⟩
      intro x hx
      rcases mem_insertByIdx.mp hx with rfl | hx'
      · omega
      · exact hd x hx'

lemma sortByIdx_sorted (l : List Chapter) :
    (sortByIdx l).Pairwise (fun a b => a.idx ≤ b.idx) := by
  induction l with
  | nil => simp [sortByIdx]
  | cons c t ih => exact insertByIdx_sorted c (sortByIdx t) ih

lemma dedupViewer_mem :
    ∀ (l : List Chapter) (seen : List String) (c : Chapter),
      c ∈ dedupViewer l seen → c ∈ l ∧ viewerShaped c.url = true := by
  intro l
  induction l with
  | nil => intro seen c hc; simp [dedupViewer] at hc
  | cons d t ih =>
    intro seen c hc
    simp only [dedupViewer] at hc
    by_cases hcond : (!(seen.contains d.url) && viewerShaped d.url) = true
    · rw [if_pos hcond] at hc
      rcases List.mem_cons.mp hc with rfl | hc'
      · have hsplit := hcond
        simp only [Bool.and_eq_true] at hsplit
        exact ⟨List.mem_cons_self c t, hsplit.2⟩
      · obtain ⟨hmem, hview⟩ := ih (d.url :: seen) c hc'
        exact ⟨List.mem_cons_of_mem d hmem, hview⟩
    · rw [if_neg hcond] at hc
      obtain ⟨hmem, hview⟩ := ih seen c hc
      exact ⟨List.mem_cons_of_mem d hmem, hview⟩

lemma dedupViewer_nodup :
    ∀ (l : List Chapter) (seen : List String),
      ((dedupViewer l seen).map Chapter.url).Nodup ∧
      ∀ c ∈ dedupViewer l seen, seen.contains c.url = false := by
  intro l
  induction l with
  | nil =>
    intro seen
    exact ⟨by simp [dedupViewer], by intro c hc; simp [dedupViewer] at hc⟩
  | cons d t ih =>
    intro seen
    by_cases hcond : (!(seen.contains d.url) && viewerShaped d.url) = true
    · have hnotin : seen.contains d.url = false := by
        have hsplit := hcond
        simp only [Bool.and_eq_true, Bool.not_eq_true'] at hsplit
        exact hsplit.1
      constructor
      · simp only [dedupViewer]
        rw [if_pos hcond]
        simp only [List.map_cons]
        refine List.nodup_cons.mpr ⟨?_, (ih (d.url :: seen)).1⟩
        intro hmem
        rcases List.mem_map.mp hmem with ⟨c, hc, hcurl⟩
        have hcf := (ih (d.url :: seen)).2 c hc
        rw [hcurl] at hcf
        simp [List.contains_cons] at hcf
      · intro c hc
        simp only [dedupViewer] at hc
        rw [if_pos hcond] at hc
        rcases List.mem_cons.mp hc with rfl | hc'
        · exact hnotin
        · exact contains_tail_false ((ih (d.url :: seen)).2 c hc')
    · constructor
      · simp only [dedupViewer]
        rw [if_neg hcond]
        exact (ih seen).1
      · intro c hc
        simp only [dedupViewer] at hc
        rw [if_neg hcond] at hc
        exact (ih seen).2 c hc

lemma dedupViewer_nil_of_nonviewer :
    ∀ (l : List Chapter) (seen : List String),
      (∀ c ∈ l, viewerShaped c.url = false) → dedupViewer l seen = [] := by
  intro l
  induction l with
  | nil => intro seen _; rfl
  | cons d t ih =>
    intro seen h
    have hd : viewerShaped d.url = false := h d (List.mem_cons_self d t)
    simp only [dedupViewer]
    rw [if_neg (by simp [hd])]
    exact ih seen (fun c hc => h c (List.mem_cons_of_mem d hc))

lemma finalize_mem (cap : Nat) (chs : List Chapter) (c : Chapter)
    (h : c ∈ finalize_chapters cap chs) :
    c ∈ chs ∧ viewerShaped c.url = true := by
  simp only [finalize_chapters] at h
  have hdd : c ∈ sortByIdx (dedupViewer chs []) := by
    by_cases hcap : 0 < cap
    · rw [if_pos hcap] at h
      exact List.take_subset _ _ h
    · rw [if_neg hcap] at h
      exact h
  exact dedupViewer_mem chs [] c ((sortByIdx_perm _).subset hdd)

lemma finalize_nodup (cap : Nat) (chs : List Chapter) :
    ((finalize_chapters cap chs).map Chapter.url).Nodup := by
  have base : ((sortByIdx (dedupViewer chs [])).map Chapter.url).Nodup :=
    (((sortByIdx_perm (dedupViewer chs [])).map Chapter.url).nodup_iff).mpr
      (dedupViewer_nodup chs []).1
  simp only [finalize_chapters]
  by_cases hcap : 0 < cap
  · rw [if_pos hcap, List.map_take]
    exact List.Nodup.sublist (List.take_sublist _ _) base
  · rw [if_neg hcap]
    exact base

lemma finalize_sorted (cap : Nat) (chs : List Chapter) :
    (finalize_chapters cap chs).Pairwise (fun a b => a.idx ≤ b.idx) := by
  simp only [finalize_chapters]
  by_cases hcap : 0 < cap
  · rw [if_pos hcap]
    exact List.Pairwise.sublist (List.take_sublist _ _) (sortByIdx_sorted _)
  · rw [if_neg hcap]
    exact sortByIdx_sorted _

/-! ## C5 — the dedup/ordering finalizer -/

/-- C5 counterexample.  On discovery input `[A, B, A, C, B]` (indices 1..5)
the finalizer keeps `[A, B, C]` — but it never re-numbers: it sorts by the
*original* `idx` field, so the output indices are `1, 2, 4`, not the dense
`1, 2, 3` the claim asserts. -/
theorem finalize_keeps_original_indices :
    (finalize_chapters 0 exChs).map Chapter.idx = [1, 2, 4] ∧
    (finalize_chapters 0 exChs).map Chapter.idx ≠ [1, 2, 3] ∧
    (finalize_chapters 0 exChs).map Chapter.url = [vA, vB, vC] := by
  exact ⟨by decide, by decide, by decide⟩

/-- C5 (amended): the finalizer keeps only the first occurrence of each
reference that contains `"/viewer/"` (and drops non-viewer references
entirely, see pia.py line 771 / novelpia_epub.py line 837), orders the
result by the unchanged original `idx` field — which preserves discovery
order when the input indices are increasing, as both discovery strategies
produce — and truncates to the cap when it is positive: a positive cap
yields exactly the cap-length prefix of the uncapped result, so in
particular the output length never exceeds a positive cap.  References
`[A, B, A, C, B]` with discovery indices `1..5` yield `[A, B, C]` with
their original indices `1, 2, 4`, and the same input under cap 2 yields
just `[A, B]`. -/
theorem finalize_chapters_props :
    (∀ cap chs, ((finalize_chapters cap chs).map Chapter.url).Nodup) ∧
    (∀ cap chs c, c ∈ finalize_chapters cap chs →
        c ∈ chs ∧ viewerShaped c.url = true) ∧
    (∀ cap chs,
        (finalize_chapters cap chs).Pairwise (fun a b => a.idx ≤ b.idx)) ∧
    (∀ cap chs, 0 < cap →
        finalize_chapters cap chs = (finalize_chapters 0 chs).take cap) ∧
    (∀ cap chs, 0 < cap → (finalize_chapters cap chs).length ≤ cap) ∧
    (finalize_chapters 0 exChs).map (fun c => (c.idx, c.url)) =
      [(1, vA), (2, vB), (4, vC)] ∧
    (finalize_chapters 2 exChs).map (fun c => (c.idx, c.url)) =
      [(1, vA), (2, vB)] := by
  have htrunc : ∀ cap chs, 0 < cap →
      finalize_chapters cap chs = (finalize_chapters 0 chs).take cap := by
    intro cap chs hcap
    simp only [finalize_chapters]
    rw [if_pos hcap, if_neg (Nat.lt_irrefl 0)]
  refine ⟨finalize_nodup, fun cap chs c h => finalize_mem cap chs c h,
    finalize_sorted, htrunc, ?_, by decide, by decide⟩
  intro cap chs hcap
  rw [htrunc cap chs hcap]
  exact List.length_take_le cap (finalize_chapters 0 chs)

/-- Witness for C5: the membership part applied to the first entry of the
example input, and the truncation part applied at cap 2 — where the
cap-2 result is the two-element prefix of the uncapped result. -/
theorem finalize_chapters_props_witness :
    ((⟨1, "a", vA⟩ : Chapter) ∈ exChs ∧ viewerShaped vA = true) ∧
    finalize_chapters 2 exChs = (finalize_chapters 0 exChs).take 2 ∧
    (finalize_chapters 2 exChs).length ≤ 2 :=
  ⟨finalize_chapters_props.2.1 0 exChs ⟨1, "a", vA⟩ (by decide),
   finalize_chapters_props.2.2.2.1 2 exChs (by decide),
   finalize_chapters_props.2.2.2.2.1 2 exChs (by decide)⟩

/-! ## C10 — the viewer-shape invariant of the final list -/

/-- C10: every chapter surviving the finalizer (the list handed to EPUB
building and written to chapters.jsonl) has `"/viewer/"` in its reference,
and a run whose discovery produced only non-viewer references finalizes to
the empty list (About-only EPUB). -/
theorem finalize_viewer_invariant :
    (∀ cap chs c, c ∈ finalize_chapters cap chs →
        viewerShaped c.url = true) ∧
    (∀ cap chs, (∀ c ∈ chs, viewerShaped c.url = false) →
        finalize_chapters cap chs = []) := by
  constructor
  · intro cap chs c h
    exact (finalize_mem cap chs c h).2
  · intro cap chs h
    simp only [finalize_chapters]
    rw [dedupViewer_nil_of_nonviewer chs [] h]
    by_cases hcap : 0 < cap
    · rw [if_pos hcap]
      simp [sortByIdx]
    · rw [if_neg hcap]; rfl

/-- Witness for C10: a discovery list holding a single non-viewer
reference finalizes to the empty chapter list. -/
theorem finalize_viewer_invariant_witness :
    finalize_chapters 0 [⟨1, "t", "https://x/novel/9"⟩] = [] :=
  finalize_viewer_invariant.2 0 [⟨1, "t", "https://x/novel/9"⟩] (by decide)

/-! ## C6 — the logging mask -/

/-- C6 counterexample.  `_mask_kv` masks credential-like names only at the
*top level*; a `password` field nested under a non-credential key goes
through `_mask_value`, which masks string shapes but never keys — so two
json bodies differing only in a nested password value produce different
masked (hence different logged) output.  Likewise the logged response-body
preview (api.py lines 203-211) is truncation-only, so two response bodies
differing only in a password value log differently. -/
theorem mask_kv_nested_password_differs :
    mask_kv maskExA ≠ mask_kv maskExB ∧
    log_body_preview "errmsg ok password hunter2xx" ≠
      log_body_preview "errmsg ok password hunter2yy" := by
  constructor
  · intro h
    rw [show mask_kv maskExA = maskExA from rfl,
        show mask_kv maskExB = maskExB from rfl] at h
    simp only [maskExA, maskExB] at h
    injection h with h1 _
    injection h1 with _ h2
    injection h2 with h3
    injection h3 with h4 _
    injection h4 with _ h5
    injection h5 with h6
    exact absurd h6 (by decide)
  · decide

/-- C6 (amended): whenever diagnostic logging is enabled, the dict-shaped
channels (headers, params, json bodies) pass through `_mask_kv`: every
*top-level* field whose name contains a credential pattern is replaced by
the fixed marker `"***"` — so two requests differing only in such a field's
value produce identical masked output; nested credential-named fields are
only value-shape masked, string-form `data` and response-body previews are
logged with truncation only. -/
theorem mask_kv_cred_top_level :
    ∀ (d : List (String × JVal)) (k : String) (v w : JVal),
      isCredKey k = true →
      mask_kv ((k, v) :: d) = (k, .str "***") :: mask_kv d ∧
      mask_kv ((k, v) :: d) = mask_kv ((k, w) :: d) := by
  intro d k v w h
  constructor <;> simp [mask_kv, h]

/-- Witness for C6: the masking theorem at the credential key `"token"`. -/
theorem mask_kv_cred_top_level_witness :
    mask_kv [("token", .str "secretvalue")] = [("token", .str "***")] :=
  (mask_kv_cred_top_level [] "token" (.str "secretvalue") .scalar
    (by decide)).1

/-! ## Helper lemmas: the sequential walker -/

lemma walkAux_length (nextOf titleOf : String → String) :
    ∀ (fuel : Nat) (url : String) (idx : Nat) (seen : List String),
      (walkAux nextOf titleOf fuel url idx seen).length ≤ fuel := by
  intro fuel
  induction fuel with
  | zero => intro url idx seen; simp [walkAux]
  | succ fuel ih =>
    intro url idx seen
    simp only [walkAux]
    split
    · simp
    · split
      · simp
      · simp only [List.length_cons]
        exact Nat.succ_le_succ (ih _ _ _)

lemma walkAux_nodup (nextOf titleOf : String → String) :
    ∀ (fuel : Nat) (url : String) (idx : Nat) (seen : List String),
      ((walkAux nextOf titleOf fuel url idx seen).map Chapter.url).Nodup ∧
      ∀ c ∈ walkAux nextOf titleOf fuel url idx seen, c.url ∉ seen := by
  intro fuel
  induction fuel with
  | zero =>
    intro url idx seen
    exact ⟨by simp [walkAux], by intro c hc; simp [walkAux] at hc⟩
  | succ fuel ih =>
    intro url idx seen
    by_cases h1 : url = "" ∨ url ∈ seen
    · constructor
      · simp [walkAux, h1]
      · intro c hc
        simp [walkAux, h1] at hc
    · have hnot : url ∉ seen := fun hmem => h1 (Or.inr hmem)
      by_cases h2 : nextOf url = "" ∨ nextOf url = url
      · constructor
        · simp [walkAux, h1, h2]
        · intro c hc
          simp [walkAux, h1, h2] at hc
          subst hc
          exact hnot
      · constructor
        · have hstep :
              walkAux nextOf titleOf (fuel + 1) url idx seen =
                (⟨idx,
                  if titleOf url = "" then "Chapter " ++ toString idx
                  else titleOf url, url⟩ : Chapter) ::
                  walkAux nextOf titleOf fuel (nextOf url) (idx + 1)
                    (url :: seen) := by
            simp [walkAux, h1, h2]
          rw [hstep, List.map_cons]
          refine List.nodup_cons.mpr
            ⟨?_, (ih (nextOf url) (idx + 1) (url :: seen)).1⟩
          intro hmem
          rcases List.mem_map.mp hmem with ⟨c, hc, hcurl⟩
          have hcf := (ih (nextOf url) (idx + 1) (url :: seen)).2 c hc
          rw [hcurl] at hcf
          exact hcf (List.mem_cons_self url seen)
        · intro c hc
          simp [walkAux, h1, h2, List.mem_cons] at hc
          rcases hc with rfl | hc'
          · exact hnot
          · have hcf := (ih (nextOf url) (idx + 1) (url :: seen)).2 c hc'
            exact fun hmem => hcf (List.mem_cons_of_mem url hmem)

/-! ## C7 — the fallback sequential walker -/

/-- C7: the walker performs at most `max_steps` steps (the explicit cap,
default 300), stops as soon as it reaches a reference already in its
visited set, and the reference URLs of the returned chapters are pairwise
distinct.  Both source versions (pia.py and novelpia_epub.py) share this
loop structure. -/
theorem walk_next_chapters_props :
    (∀ (nextOf titleOf : String → String) (startUrl : String) (maxSteps : Nat),
        (walk_next_chapters nextOf titleOf startUrl maxSteps).length ≤
          maxSteps) ∧
    (∀ (nextOf titleOf : String → String) (startUrl : String) (maxSteps : Nat),
        ((walk_next_chapters nextOf titleOf startUrl maxSteps).map
          Chapter.url).Nodup) ∧
    (∀ (nextOf titleOf : String → String) (fuel : Nat) (url : String)
        (idx : Nat) (seen : List String),
        seen.contains url = true →
        walkAux nextOf titleOf fuel url idx seen = []) ∧
    WALK_DEFAULT_MAX_STEPS = 300 := by
  refine ⟨?_, ?_, ?_, rfl⟩
  · intro nextOf titleOf startUrl maxSteps
    exact walkAux_length nextOf titleOf maxSteps startUrl 1 []
  · intro nextOf titleOf startUrl maxSteps
    exact (walkAux_nodup nextOf titleOf maxSteps startUrl 1 []).1
  · intro nextOf titleOf fuel url idx seen h
    have hm : url ∈ seen := by simpa using h
    cases fuel with
    | zero => rfl
    | succ fuel => simp [walkAux, hm]

/-- Witness for C7: the early-termination part at a concrete
already-visited start reference. -/
theorem walk_next_chapters_props_witness :
    walkAux (fun _ => "") (fun _ => "") 5 "u" 1 ["u"] = [] :=
  walk_next_chapters_props.2.2.1 (fun _ => "") (fun _ => "") 5 "u" 1 ["u"]
    (by decide)

/-! ## Helper lemmas: pagination -/

lemma gotoAuxPia_cur {S : Type} (ui : PagUI S) (target : Nat) :
    ∀ (fuel : Nat) (s : S) (n : Nat) (s' : S) (m : Nat),
      gotoAuxPia ui target fuel s n = (true, s', m) →
      ui.cur s' = some target := by
  intro fuel
  induction fuel with
  | zero =>
    intro s n s' m h
    simp [gotoAuxPia] at h
  | succ fuel ih =>
    intro s n s' m h
    simp only [gotoAuxPia] at h
    by_cases hb : ui.hasBtn s target = true
    · rw [if_pos hb] at h
      by_cases hc : ui.cur (ui.clickNum s target) = some target
      · rw [if_pos hc] at h
        simp only [Prod.mk.injEq, true_and] at h
        rw [← h.1]
        exact hc
      · rw [if_neg hc] at h
        exact ih _ _ _ _ h
    · rw [if_neg hb] at h
      by_cases ha : ui.hasArrow s = true
      · rw [if_pos ha] at h
        exact ih _ _ _ _ h
      · rw [if_neg ha] at h
        simp only [Prod.mk.injEq] at h
        exact absurd h.1 (by simp)

lemma gotoAuxEpub_cur {S : Type} (ui : PagUI S) (target : Nat) :
    ∀ (fuel : Nat) (s : S) (n : Nat) (s' : S) (m : Nat),
      gotoAuxEpub ui target fuel s n = (true, s', m) →
      ui.cur s' = some target := by
  intro fuel
  induction fuel with
  | zero =>
    intro s n s' m h
    simp [gotoAuxEpub] at h
  | succ fuel ih =>
    intro s n s' m h
    simp only [gotoAuxEpub] at h
    by_cases ha : ui.hasArrow s = true
    · rw [if_pos ha] at h
      by_cases hb : ui.hasBtn (ui.clickArrow s) target = true
      · rw [if_pos hb] at h
        by_cases hc :
            ui.cur (ui.clickNum (ui.clickArrow s) target) = some target
        · rw [if_pos hc] at h
          simp only [Prod.mk.injEq, true_and] at h
          rw [← h.1]
          exact hc
        · rw [if_neg hc] at h
          exact ih _ _ _ _ h
      · rw [if_neg hb] at h
        exact ih _ _ _ _ h
    · rw [if_neg ha] at h
      simp only [Prod.mk.injEq] at h
      exact absurd h.1 (by simp)

lemma goto_page_cur {S : Type} (ui : PagUI S) (s : S) (target : Nat)
    (s' : S) (n : Nat) (h : goto_page ui s target = (true, s', n)) :
    ui.cur s' = some target := by
  unfold goto_page at h
  by_cases h0 : ui.cur s = some target
  · rw [if_pos h0] at h
    simp only [Prod.mk.injEq, true_and] at h
    rw [← h.1]
    exact h0
  · rw [if_neg h0] at h
    by_cases hb : ui.hasBtn s target = true
    · rw [if_pos hb] at h
      by_cases hc : ui.cur (ui.clickNum s target) = some target
      · rw [if_pos hc] at h
        simp only [Prod.mk.injEq, true_and] at h
        rw [← h.1]
        exact hc
      · rw [if_neg hc] at h
        exact gotoAuxPia_cur ui target 40 _ _ _ _ h
    · rw [if_neg hb] at h
      exact gotoAuxPia_cur ui target 40 _ _ _ _ h

lemma goto_page_epub_cur {S : Type} (ui : PagUI S) (s : S) (target : Nat)
    (s' : S) (n : Nat) (h : goto_page_epub ui s target = (true, s', n)) :
    ui.cur s' = some target := by
  unfold goto_page_epub at h
  by_cases h0 : ui.cur s = some target
  · rw [if_pos h0] at h
    simp only [Prod.mk.injEq, true_and] at h
    rw [← h.1]
    exact h0
  · rw [if_neg h0] at h
    by_cases hb : ui.hasBtn s target = true
    · rw [if_pos hb] at h
      by_cases hc : ui.cur (ui.clickNum s target) = some target
      · rw [if_pos hc] at h
        simp only [Prod.mk.injEq, true_and] at h
        rw [← h.1]
        exact hc
      · rw [if_neg hc] at h
        exact gotoAuxEpub_cur ui target 60 _ _ _ _ h
    · rw [if_neg hb] at h
      exact gotoAuxEpub_cur ui target 60 _ _ _ _ h

/-! ## C8 — idempotence of `goto_page` -/

/-- C8: for both source versions, a successful `goto_page` leaves the
current-page indicator at the target, so a second consecutive call with the
same target returns success immediately, clicks no pagination control and
does not change the surface state.  (Both versions begin by comparing the
parsed `.page-btn.current` text with the target and returning `True` before
touching any control.) -/
theorem goto_page_idempotent :
    ∀ (S : Type) (ui : PagUI S) (s : S) (target : Nat) (s' : S) (n : Nat),
      (goto_page ui s target = (true, s', n) →
        goto_page ui s' target = (true, s', 0)) ∧
      (goto_page_epub ui s target = (true, s', n) →
        goto_page_epub ui s' target = (true, s', 0)) := by
  intro S ui s target s' n
  constructor
  · intro h
    unfold goto_page
    rw [if_pos (goto_page_cur ui s target s' n h)]
  · intro h
    unfold goto_page_epub
    rw [if_pos (goto_page_epub_cur ui s target s' n h)]

/-- Witness for C8: on the demo surface a first call navigates from page 1
to page 2 with one click; the theorem then gives that the second call is a
click-free success for both versions. -/
theorem goto_page_idempotent_witness :
    goto_page uiDemo 2 2 = (true, 2, 0) ∧
    goto_page_epub uiDemo 2 2 = (true, 2, 0) :=
  ⟨(goto_page_idempotent Nat uiDemo 1 2 2 1).1 rfl,
   (goto_page_idempotent Nat uiDemo 1 2 2 1).2 rfl⟩

end PiaScrap
